import Mathlib

/-!
Shallow embedding of the wpaperd daemon core (src/daemon/src/wpaperd.rs):
the output-surface registry, the compositor event handlers, and the
configuration reload logic, together with proofs of the specified
properties. Wayland object identities (outputs, wl_surfaces, layer
surfaces) are modelled as natural numbers used only as comparison keys;
calls into the display-server client library are recorded as an action
trace so that ordering and occurrence properties can be stated.
-/

namespace WpaperdModel

/-- Wallpaper settings resolved for one output; contents abstract,
equality-comparable as a whole record. -/
structure WallpaperSettings where
  wallpaper : String
  deriving DecidableEq, Repr

/-- Modelled from the spec: the `WallpaperConfig` store
(src/daemon/src/wallpaper_config.rs is not in the excerpt). Per the spec it
holds the filesystem path it was loaded from, a mapping from output name to
`WallpaperSettings`, and a default/fallback entry for unmatched names. -/
structure WallpaperConfig where
  path : String
  entries : List (String × WallpaperSettings)
  defaultEntry : WallpaperSettings
  deriving DecidableEq, Repr

/-- Modelled from the spec: `WallpaperConfig::get_output_by_name`
(src/daemon/src/wallpaper_config.rs is not in the excerpt): look up the
output name, falling back to the default entry if no exact match exists. -/
def WallpaperConfig.get_output_by_name (c : WallpaperConfig) (name : String) :
    WallpaperSettings :=
  match c.entries.lookup name with
  | some s => s
  | none => c.defaultEntry

/-- One per-output rendering surface, with the fields used by
`src/daemon/src/wpaperd.rs`: the output name, the layer-surface handle, the
owning output identity, the wl_surface identity, the stored scale factor,
the current dimensions, the `configured` flag and the resolved settings. -/
structure Surface where
  name : String
  layer : Nat
  output : Nat
  surface : Nat
  scale : Int
  dimensions : Nat × Nat
  configured : Bool
  wallpaper_info : WallpaperSettings
  deriving DecidableEq, Repr

/-- Modelled from the spec: `Surface::new` (src/daemon/src/surface.rs is not
in the excerpt). On creation the geometry is unknown (size (0,0), the
compositor decides), the surface is pending its first configure so
`configured` starts false, and the constructor stores the scale it is handed
as the Surface's scale field. -/
def Surface.new (name : String) (layer : Nat) (output : Nat) (surface : Nat)
    (scale : Int) (wallpaper_info : WallpaperSettings) : Surface :=
  { name := name, layer := layer, output := output, surface := surface,
    scale := scale, dimensions := (0, 0), configured := false,
    wallpaper_info := wallpaper_info }

/-- Modelled from the spec: `Surface::resize` (src/daemon/src/surface.rs is
not in the excerpt). With an explicit configure the dimensions are updated
to the proposed size; with `none` the last known size is kept, reinterpreted
at the new scale. -/
def Surface.resize (s : Surface) (configure : Option (Nat × Nat)) : Surface :=
  { s with dimensions := configure.getD s.dimensions }

/-- Observable calls a handler makes into the display-server client library
and the renderer, in order, plus the point at which `configured` is set. -/
inductive Action where
  | resize (newSize : Option (Nat × Nat))
  | set_buffer_scale (factor : Int)
  | set_buffer_transform (t : Nat)
  | set_configured
  deriving DecidableEq, Repr

/-- The daemon state relevant to the reconciliation engine: the surface
registry, the shared configuration store, and the scaled-window flag. -/
structure Wpaperd where
  surfaces : List Surface
  wallpaper_config : WallpaperConfig
  use_scaled_window : Bool
  deriving DecidableEq, Repr

/-- The payload of `OutputState::info`: the output identity, its
human-readable name, and the server-reported scale factor. -/
structure OutputInfo where
  id : Nat
  name : String
  scale_factor : Int
  deriving DecidableEq, Repr

/-- Embeds `self.surfaces.iter_mut().find(p)` followed by mutating the found
element: update the first surface satisfying `p` with `f`, returning the new
list and the actions emitted; `none` models the `.unwrap()` panic when no
surface matches. -/
def updateFirst (p : Surface → Bool) (f : Surface → Surface × List Action) :
    List Surface → Option (List Surface × List Action)
  | [] => none
  | s :: rest =>
    if p s then
      some ((f s).1 :: rest, (f s).2)
    else
      match updateFirst p f rest with
      | none => none
      | some (rest', acts) => some (s :: rest', acts)

/-- Embeds `self.surfaces.iter().enumerate().find(p)...0`: index of the first
surface satisfying `p`. -/
def findIndex (p : Surface → Bool) : List Surface → Option Nat
  | [] => none
  | s :: rest => if p s then some 0 else (findIndex p rest).map (· + 1)

/-- Embeds `Vec::swap_remove(i)`: overwrite position `i` with the last element and
pop the last element. -/
def swapRemove {α : Type} (l : List α) (i : Nat) : List α :=
  match l.getLast? with
  | none => l
  | some last => (l.set i last).dropLast

/-- The registry lookup by output identity (the `find` pattern of
`output_destroyed`, exposed as the spec's `find_by_output`). -/
def Wpaperd.find_by_output (st : Wpaperd) (output : Nat) : Option Surface :=
  st.surfaces.find? (fun s => s.output == output)

/-- The registry lookup by wl_surface identity (the `find` pattern of
`scale_factor_changed` and `transform_changed`). -/
def Wpaperd.find_by_wl_surface (st : Wpaperd) (ws : Nat) : Option Surface :=
  st.surfaces.find? (fun s => s.surface == ws)

/-- The registry lookup by layer-surface handle (the `find` pattern of
`configure`). -/
def Wpaperd.find_by_layer (st : Wpaperd) (layer : Nat) : Option Surface :=
  st.surfaces.find? (fun s => s.layer == layer)

/-- Embeds `Wpaperd::reload_config` (src/daemon/src/wpaperd.rs lines 59-81). The
outcome of `WallpaperConfig::new_from_path` is passed in as `parsed` (file
IO is external). Returns the new state, whether "Configuration updated" was
logged, and the `Result`. -/
def Wpaperd.reload_config (st : Wpaperd)
    (parsed : Except String WallpaperConfig) :
    Wpaperd × Bool × Except String Unit :=
  match parsed with
  | .ok config =>
    if !(st.wallpaper_config == config) then
      ({ st with wallpaper_config := config }, true, .ok ())
    else
      (st, false, .ok ())
  | .error err => (st, false, .error err)

/-- Embeds `CompositorHandler::scale_factor_changed` (wpaperd.rs lines 85-106):
find the surface by wl_surface (panicking if absent, modelled as `none`);
if the new factor differs from the stored one, update the stored scale, set
the buffer scale and resize with no explicit dimensions; otherwise ignore
the unnecessary update. -/
def Wpaperd.scale_factor_changed (st : Wpaperd) (ws : Nat) (new_factor : Int) :
    Option (Wpaperd × List Action) :=
  (updateFirst (fun s => s.surface == ws)
    (fun s =>
      if s.scale != new_factor then
        (Surface.resize { s with scale := new_factor } none,
         [Action.set_buffer_scale new_factor, Action.resize none])
      else
        (s, []))
    st.surfaces).map
    (fun r => ({ st with surfaces := r.1 }, r.2))

/-- Embeds `CompositorHandler::transform_changed` (wpaperd.rs lines 117-133): find
the surface by wl_surface (panicking if absent) and set the buffer
transform on its wl_surface. -/
def Wpaperd.transform_changed (st : Wpaperd) (ws : Nat) (new_transform : Nat) :
    Option (Wpaperd × List Action) :=
  (updateFirst (fun s => s.surface == ws)
    (fun s => (s, [Action.set_buffer_transform new_transform]))
    st.surfaces).map
    (fun r => ({ st with surfaces := r.1 }, r.2))

/-- Embeds `OutputHandler::new_output` (wpaperd.rs lines 141-197): create a
wl_surface and layer surface for the output, set the initial buffer scale
(1 in scaled-window mode, the reported factor otherwise), resolve the
wallpaper settings by output name, and push the new Surface; `Surface::new`
receives `info.scale_factor`. The fresh wl_surface and layer handles are
supplied by the compositor and passed in as parameters. -/
def Wpaperd.new_output (st : Wpaperd) (info : OutputInfo)
    (surface_id : Nat) (layer_id : Nat) : Wpaperd × List Action :=
  let scale : Int := if st.use_scaled_window then 1 else info.scale_factor
  let wallpaper_info := st.wallpaper_config.get_output_by_name info.name
  let s := Surface.new info.name layer_id info.id surface_id
    info.scale_factor wallpaper_info
  ({ st with surfaces := st.surfaces ++ [s] }, [Action.set_buffer_scale scale])

/-- Embeds `OutputHandler::output_destroyed` (wpaperd.rs lines 208-223): find the
index of the surface owning the destroyed output (panicking if absent,
modelled as `none`) and `swap_remove` it. -/
def Wpaperd.output_destroyed (st : Wpaperd) (output : Nat) : Option Wpaperd :=
  (findIndex (fun s => s.output == output) st.surfaces).map
    (fun i => { st with surfaces := swapRemove st.surfaces i })

/-- Embeds `LayerShellHandler::configure` (wpaperd.rs lines 229-250): find the
surface by layer handle (panicking if absent); if the stored dimensions
differ from the proposed size, resize with the configure; then
unconditionally set `configured = true`. -/
def Wpaperd.configure (st : Wpaperd) (layer : Nat) (new_size : Nat × Nat) :
    Option (Wpaperd × List Action) :=
  (updateFirst (fun s => s.layer == layer)
    (fun s =>
      let r :=
        if s.dimensions != new_size then
          (Surface.resize s (some new_size), [Action.resize (some new_size)])
        else
          (s, [])
      ({ r.1 with configured := true }, r.2 ++ [Action.set_configured]))
    st.surfaces).map
    (fun r => ({ st with surfaces := r.1 }, r.2))

/-- Output topology events delivered by the compositor. -/
inductive Event where
  | appeared (info : OutputInfo)
  | disappeared (output : Nat)
  deriving DecidableEq, Repr

/-- One topology event dispatched into the engine (the wl_surface and layer
handles of a fresh surface reuse the output id; they are irrelevant to the
registry invariant). -/
def step (st : Wpaperd) : Event → Option Wpaperd
  | .appeared info => some (st.new_output info info.id info.id).1
  | .disappeared o => st.output_destroyed o

/-- Run a sequence of topology events; `none` as soon as a handler panics. -/
def run (st : Wpaperd) : List Event → Option Wpaperd
  | [] => some st
  | e :: es =>
    match step st e with
    | none => none
    | some st' => run st' es

/-- Protocol validity of an event sequence given the currently-live output
ids: an appearance announces a fresh id, a disappearance references a
previously-appeared, not-yet-removed id. -/
def validFrom (liveIds : List Nat) : List Event → Bool
  | [] => true
  | .appeared info :: es =>
    !liveIds.contains info.id && validFrom (liveIds ++ [info.id]) es
  | .disappeared o :: es =>
    liveIds.contains o && validFrom (liveIds.erase o) es

/-- The live output ids after a sequence of topology events. -/
def liveAfter (liveIds : List Nat) : List Event → List Nat
  | [] => liveIds
  | .appeared info :: es => liveAfter (liveIds ++ [info.id]) es
  | .disappeared o :: es => liveAfter (liveIds.erase o) es

/-- The output identities held in the registry, in registry order. -/
def outputs (st : Wpaperd) : List Nat := st.surfaces.map (fun s => s.output)

/-- Sample settings A, used by concrete instantiations. -/
def settingsA : WallpaperSettings := { wallpaper := "a.png" }

/-- Sample default settings D, used by concrete instantiations. -/
def settingsD : WallpaperSettings := { wallpaper := "d.png" }

/-- A sample configuration: "eDP-1" maps to A, everything else falls back
to the default D. -/
def sampleConfig : WallpaperConfig :=
  { path := "wallpaper.toml", entries := [("eDP-1", settingsA)],
    defaultEntry := settingsD }

/-- A second, structurally different sample configuration. -/
def otherConfig : WallpaperConfig :=
  { path := "wallpaper.toml", entries := [], defaultEntry := settingsA }

/-- A daemon state with an empty registry, not in scaled-window mode. -/
def emptyState : Wpaperd :=
  { surfaces := [], wallpaper_config := sampleConfig,
    use_scaled_window := false }

/-- A daemon state with an empty registry, in scaled-window mode. -/
def scaledState : Wpaperd :=
  { surfaces := [], wallpaper_config := sampleConfig,
    use_scaled_window := true }

/-- A sample output whose reported scale factor is 2. -/
def sampleInfo : OutputInfo := { id := 7, name := "HDMI-1", scale_factor := 2 }

/-- A sample surface for a live output 7 with wl_surface 10 and layer 11. -/
def sampleSurface : Surface :=
  { name := "HDMI-1", layer := 11, output := 7, surface := 10, scale := 2,
    dimensions := (800, 600), configured := true, wallpaper_info := settingsD }

/-- A daemon state whose registry holds exactly `sampleSurface`. -/
def oneSurfaceState : Wpaperd :=
  { surfaces := [sampleSurface], wallpaper_config := sampleConfig,
    use_scaled_window := false }

/-- A sample protocol-valid event sequence: two outputs appear, then the
first disappears. -/
def sampleEvents : List Event :=
  [Event.appeared { id := 1, name := "eDP-1", scale_factor := 1 },
   Event.appeared { id := 2, name := "HDMI-1", scale_factor := 1 },
   Event.disappeared 1]

/- ------------------------------------------------------------------ -/
/- Helper lemmas about the registry search/update primitives.          -/
/- ------------------------------------------------------------------ -/

theorem updateFirst_eq_none (p : Surface → Bool)
    (f : Surface → Surface × List Action) :
    ∀ l : List Surface, l.find? p = none → updateFirst p f l = none := by
  intro l hl
  induction l with
  | nil => rfl
  | cons a rest ih =>
    rw [List.find?_eq_none] at hl
    have ha : p a = false := by
      have := hl a (List.mem_cons_self a rest)
      simpa using this
    have hrest : rest.find? p = none := by
      rw [List.find?_eq_none]
      intro x hx
      exact hl x (List.mem_cons_of_mem a hx)
    simp only [updateFirst, ha, ih hrest]
    simp

theorem updateFirst_eq_some (p : Surface → Bool)
    (f : Surface → Surface × List Action) :
    ∀ (l : List Surface) (s : Surface), l.find? p = some s →
      ∃ l₁ l₂, l = l₁ ++ s :: l₂ ∧ (∀ x ∈ l₁, p x = false) ∧ p s = true ∧
        updateFirst p f l = some (l₁ ++ (f s).1 :: l₂, (f s).2) := by
  intro l
  induction l with
  | nil => intro s hs; simp [List.find?] at hs
  | cons a rest ih =>
    intro s hs
    by_cases ha : p a
    · rw [List.find?_cons_of_pos _ ha] at hs
      cases hs
      exact ⟨[], rest, rfl, by simp, ha, by simp [updateFirst, ha]⟩
    · rw [List.find?_cons_of_neg _ (by simpa using ha)] at hs
      obtain ⟨l₁, l₂, hdecomp, hl₁, hps, hupd⟩ := ih s hs
      refine ⟨a :: l₁, l₂, by simp [hdecomp], ?_, hps, ?_⟩
      · intro x hx
        rcases List.mem_cons.mp hx with hx | hx
        · subst hx; simpa using ha
        · exact hl₁ x hx
      · simp only [updateFirst, hupd]
        simp [ha]

theorem find?_middle (p : Surface → Bool) :
    ∀ (l₁ : List Surface) (s : Surface) (l₂ : List Surface),
      (∀ x ∈ l₁, p x = false) → p s = true →
      (l₁ ++ s :: l₂).find? p = some s := by
  intro l₁
  induction l₁ with
  | nil => intro s l₂ _ hps; simpa [List.find?_cons_of_pos] using
      List.find?_cons_of_pos (l := l₂) hps
  | cons a rest ih =>
    intro s l₂ h₁ hps
    have ha : p a = false := h₁ a (List.mem_cons_self a rest)
    have : ((a :: rest) ++ s :: l₂).find? p = (rest ++ s :: l₂).find? p := by
      simpa using List.find?_cons_of_neg (l := rest ++ s :: l₂) (by simp [ha])
    rw [this]
    exact ih s l₂ (fun x hx => h₁ x (List.mem_cons_of_mem a hx)) hps

theorem findIndex_eq_none (p : Surface → Bool) :
    ∀ l : List Surface, (∀ x ∈ l, p x = false) → findIndex p l = none := by
  intro l hl
  induction l with
  | nil => rfl
  | cons a rest ih =>
    have ha : p a = false := hl a (List.mem_cons_self a rest)
    have : findIndex p rest = none :=
      ih (fun x hx => hl x (List.mem_cons_of_mem a hx))
    simp [findIndex, ha, this]

theorem lookup_eq_none_of_no_key :
    ∀ (es : List (String × WallpaperSettings)) (name : String),
      (∀ e ∈ es, e.1 ≠ name) → es.lookup name = none := by
  intro es name h
  induction es with
  | nil => rfl
  | cons e rest ih =>
    have he : e.1 ≠ name := h e (List.mem_cons_self e rest)
    obtain ⟨k, v⟩ := e
    have hk : (name == k) = false :=
      beq_eq_false_iff_ne.mpr (Ne.symm (by simpa using he))
    simp only [List.lookup, hk]
    exact ih (fun x hx => h x (List.mem_cons_of_mem _ hx))

theorem set_getElem_self_eq {α : Type} (l : List α) (i : Nat)
    (h : i < l.length) : l.set i (l.get ⟨i, h⟩) = l := by
  show l.set i l[i] = l
  apply List.ext_getElem
  · simp
  · intro j h1 h2
    rw [List.getElem_set]
    split
    · next hji => subst hji; rfl
    · rfl

theorem eraseIdx_eq_take_drop {α : Type} (l : List α) (n : Nat) :
    l.eraseIdx n = l.take n ++ l.drop (n + 1) := by
  induction l generalizing n with
  | nil => simp
  | cons a l ih => cases n <;> simp [List.eraseIdx, ih]

theorem map_swapRemove {α β : Type} (f : α → β) (l : List α) (i : Nat) :
    (swapRemove l i).map f = swapRemove (l.map f) i := by
  rcases l with _ | ⟨a, l⟩
  · rfl
  · have hne : (a :: l) ≠ [] := by simp
    have hne2 : ((a :: l).map f) ≠ [] := by simp
    have hg : ((a :: l).map f).getLast hne2 = f ((a :: l).getLast hne) := by
      have h1 : ((a :: l).map f).getLast? = some (((a :: l).map f).getLast hne2) :=
        List.getLast?_eq_getLast _ hne2
      have h2 : ((a :: l).map f).getLast? = some (f ((a :: l).getLast hne)) := by
        rw [List.getLast?_map, List.getLast?_eq_getLast _ hne]
        rfl
      exact Option.some.inj (h1.symm.trans h2)
    rw [swapRemove, swapRemove, List.getLast?_eq_getLast _ hne,
      List.getLast?_eq_getLast _ hne2]
    simp only [List.map_dropLast, List.map_set, hg]

theorem swapRemove_perm_eraseIdx {α : Type} (l : List α) (i : Nat)
    (h : i < l.length) : (swapRemove l i).Perm (l.eraseIdx i) := by
  have hne : l ≠ [] := by
    intro hc
    subst hc
    simp at h
  rw [swapRemove, List.getLast?_eq_getLast _ hne]
  show ((l.set i (l.getLast hne)).dropLast).Perm (l.eraseIdx i)
  by_cases hi : i = l.length - 1
  · subst hi
    have hlen2 : l.length - 1 < l.length := by
      have := List.length_pos.mpr hne
      omega
    have hg : l.getLast hne = l.get ⟨l.length - 1, hlen2⟩ :=
      List.getLast_eq_getElem (l := l) hne
    rw [hg, set_getElem_self_eq,
      ← List.dropLast_eq_eraseIdx (show l.length - 1 + 1 = l.length by
        have := List.length_pos.mpr hne; omega)]
  · have hlt : i < l.length - 1 := by omega
    have him : i < l.dropLast.length := by
      rw [List.length_dropLast]
      omega
    generalize hb : l.getLast hne = b
    have hm : l.dropLast ++ [b] = l := by
      rw [← hb]
      exact List.dropLast_append_getLast hne
    generalize hmm : l.dropLast = m at hm him
    rw [← hm, List.set_append_left _ _ him, List.dropLast_concat,
      List.eraseIdx_append_of_lt_length him,
      (by rw [List.set_eq_take_append_cons_drop, if_pos him] :
        m.set i b = m.take i ++ b :: m.drop (i + 1)),
      eraseIdx_eq_take_drop]
    exact List.perm_middle.trans
      (List.perm_append_singleton _ _).symm

theorem findIndex_output_spec :
    ∀ (l : List Surface) (o : Nat), o ∈ l.map (fun s => s.output) →
      ∃ i, findIndex (fun s => s.output == o) l = some i ∧ i < l.length ∧
        (l.map (fun s => s.output)).indexOf o = i := by
  intro l
  induction l with
  | nil => intro o ho; simp at ho
  | cons a l ih =>
    intro o ho
    by_cases ha : a.output = o
    · refine ⟨0, ?_, by simp, ?_⟩
      · simp [findIndex, ha]
      · simp [ha, List.indexOf_cons_self]
    · have ho' : o ∈ l.map (fun s => s.output) := by
        rw [List.map_cons] at ho
        rcases List.mem_cons.mp ho with h | h
        · exact absurd h.symm ha
        · exact h
      obtain ⟨i, hfi, hlen, hidx⟩ := ih o ho'
      refine ⟨i + 1, ?_, by simpa using Nat.succ_lt_succ hlen, ?_⟩
      · simp [findIndex, ha, hfi]
      · simp only [List.map_cons]
        rw [List.indexOf_cons_ne _ (by simpa using ha), hidx]

theorem output_destroyed_spec (st : Wpaperd) (o : Nat)
    (h : o ∈ outputs st) :
    ∃ st', st.output_destroyed o = some st' ∧
      (outputs st').Perm ((outputs st).erase o) := by
  obtain ⟨i, hfi, hlen, hidx⟩ := findIndex_output_spec st.surfaces o h
  have hdest : st.output_destroyed o =
      some { st with surfaces := swapRemove st.surfaces i } := by
    rw [Wpaperd.output_destroyed, hfi]
    rfl
  refine ⟨_, hdest, ?_⟩
  show ((swapRemove st.surfaces i).map (fun s => s.output)).Perm _
  rw [map_swapRemove]
  have h1 : (swapRemove (st.surfaces.map (fun s => s.output)) i).Perm
      ((st.surfaces.map (fun s => s.output)).eraseIdx i) :=
    swapRemove_perm_eraseIdx _ i (by simpa using hlen)
  have h2 : (st.surfaces.map (fun s => s.output)).eraseIdx i =
      (st.surfaces.map (fun s => s.output)).erase o := by
    rw [← hidx]
    exact List.eraseIdx_indexOf_eq_erase o _
  exact h2 ▸ h1

theorem run_invariant :
    ∀ (evs : List Event) (st : Wpaperd) (liveIds : List Nat),
      validFrom liveIds evs = true → (outputs st).Perm liveIds →
      ∃ st', run st evs = some st' ∧
        (outputs st').Perm (liveAfter liveIds evs) := by
  intro evs
  induction evs with
  | nil =>
    intro st liveIds _ hperm
    exact ⟨st, rfl, hperm⟩
  | cons e es ih =>
    intro st liveIds hv hperm
    cases e with
    | appeared info =>
      simp only [validFrom, Bool.and_eq_true] at hv
      have hout : outputs (st.new_output info info.id info.id).1 =
          outputs st ++ [info.id] := by
        simp [outputs, Wpaperd.new_output, Surface.new]
      obtain ⟨st', hrun, hperm'⟩ :=
        ih _ (liveIds ++ [info.id]) hv.2
          (by rw [hout]; exact hperm.append_right _)
      exact ⟨st', hrun, hperm'⟩
    | disappeared o =>
      simp only [validFrom, Bool.and_eq_true] at hv
      have hmem : o ∈ liveIds := by
        have := hv.1
        exact List.elem_iff.mp this
      have ho : o ∈ outputs st := hperm.mem_iff.mpr hmem
      obtain ⟨st1, hdest, hperm1⟩ := output_destroyed_spec st o ho
      obtain ⟨st', hrun, hperm'⟩ :=
        ih st1 (liveIds.erase o) hv.2 (hperm1.trans (hperm.erase o))
      refine ⟨st', ?_, hperm'⟩
      show (match step st (Event.disappeared o) with
        | none => none
        | some st1 => run st1 es) = some st'
      rw [show step st (Event.disappeared o) = some st1 from hdest]
      exact hrun

/- ------------------------------------------------------------------ -/
/- Claims.                                                             -/
/- ------------------------------------------------------------------ -/

/-- C1: over any protocol-valid sequence of output-appeared and
output-disappeared events (each disappearance references a
previously-appeared, not-yet-removed output), starting from an empty
registry, no handler panics, the number of Surfaces in the registry equals
the number of currently-live outputs, and `find_by_output` succeeds exactly
for the live outputs: each appearance inserts exactly one Surface and each
disappearance removes exactly the Surface whose output matches. -/
theorem C1_registry_tracks_live_outputs (evs : List Event) (st0 : Wpaperd)
    (hempty : st0.surfaces = []) (hv : validFrom [] evs = true) :
    ∃ st', run st0 evs = some st' ∧
      st'.surfaces.length = (liveAfter [] evs).length ∧
      ∀ o, (st'.find_by_output o).isSome ↔ o ∈ liveAfter [] evs := by
  obtain ⟨st', hrun, hperm⟩ :=
    run_invariant evs st0 [] hv (by simp [outputs, hempty])
  refine ⟨st', hrun, ?_, ?_⟩
  · have hlen := hperm.length_eq
    simpa [outputs] using hlen
  · intro o
    rw [Wpaperd.find_by_output, List.find?_isSome]
    constructor
    · rintro ⟨s, hs, hp⟩
      have hso : s.output = o := by simpa using hp
      exact hperm.mem_iff.mp (hso ▸ List.mem_map_of_mem _ hs)
    · intro ho
      have hmem : o ∈ outputs st' := hperm.mem_iff.mpr ho
      obtain ⟨s, hs, hso⟩ := List.mem_map.mp hmem
      exact ⟨s, hs, by simp [hso]⟩

/-- Witness for C1 on a concrete valid sequence: "eDP-1" (id 1) and
"HDMI-1" (id 2) appear, then output 1 disappears; one surface remains and
`find_by_output` succeeds exactly for output 2. -/
theorem C1_witness :
    validFrom [] sampleEvents = true ∧
    ∃ st', run emptyState sampleEvents = some st' ∧
      st'.surfaces.length = (liveAfter [] sampleEvents).length ∧
      ∀ o, (st'.find_by_output o).isSome ↔ o ∈ liveAfter [] sampleEvents :=
  ⟨rfl, C1_registry_tracks_live_outputs sampleEvents emptyState rfl rfl⟩

/-- C5: a reload whose re-parse succeeds and yields a value structurally
equal to the current in-memory configuration leaves the Store untouched and
logs no "Configuration updated" notification; when the parsed result
differs by full equality, the Store is replaced wholesale and the change is
logged. -/
theorem C5_reload_equivalence (st : Wpaperd) (c : WallpaperConfig) :
    (c = st.wallpaper_config →
      st.reload_config (.ok c) = (st, false, .ok ())) ∧
    (c ≠ st.wallpaper_config →
      st.reload_config (.ok c) =
        ({ st with wallpaper_config := c }, true, .ok ())) := by
  constructor
  · intro h
    subst h
    simp [Wpaperd.reload_config]
  · intro h
    have hne : (st.wallpaper_config == c) = false :=
      beq_eq_false_iff_ne.mpr (Ne.symm h)
    simp [Wpaperd.reload_config, hne]

/-- Witness for C5 at a concrete state: an equal reload is a silent no-op,
a differing reload replaces the store and logs. -/
theorem C5_witness :
    emptyState.reload_config (.ok emptyState.wallpaper_config) =
      (emptyState, false, .ok ()) ∧
    emptyState.reload_config (.ok otherConfig) =
      ({ emptyState with wallpaper_config := otherConfig }, true, .ok ()) :=
  ⟨(C5_reload_equivalence emptyState emptyState.wallpaper_config).1 rfl,
   (C5_reload_equivalence emptyState otherConfig).2 (by decide)⟩

/-- C6: a reload whose re-parse fails returns an error and leaves the
previously loaded configuration fully intact; the daemon keeps running (the
handler returns normally with an error value); and `reload_config` returns
an error if and only if the re-parse failed. -/
theorem C6_reload_failure (st : Wpaperd) (e : String)
    (parsed : Except String WallpaperConfig) :
    (st.reload_config (.error e) = (st, false, .error e)) ∧
    ((∃ msg, (st.reload_config parsed).2.2 = Except.error msg) ↔
      ∃ msg, parsed = Except.error msg) := by
  refine ⟨rfl, ?_⟩
  cases parsed with
  | ok c =>
    simp only [Wpaperd.reload_config]
    constructor
    · rintro ⟨msg, hmsg⟩
      by_cases hc : (st.wallpaper_config == c) = true <;> simp [hc] at hmsg
    · rintro ⟨msg, hmsg⟩
      cases hmsg
  | error msg => exact ⟨fun _ => ⟨msg, rfl⟩, fun _ => ⟨msg, rfl⟩⟩

/-- C7: every handler that looks up a surface by output, wl_surface or
layer handle panics (modelled as `none`) when no Surface in the registry
matches, rather than returning a recoverable error. -/
theorem C7_missing_match_panics (st : Wpaperd) (ws o layer : Nat) (f : Int)
    (t : Nat) (sz : Nat × Nat)
    (hw : ∀ s ∈ st.surfaces, s.surface ≠ ws)
    (ho : ∀ s ∈ st.surfaces, s.output ≠ o)
    (hl : ∀ s ∈ st.surfaces, s.layer ≠ layer) :
    st.scale_factor_changed ws f = none ∧
    st.transform_changed ws t = none ∧
    st.configure layer sz = none ∧
    st.output_destroyed o = none := by
  have hwf : st.surfaces.find? (fun s => s.surface == ws) = none := by
    rw [List.find?_eq_none]
    intro x hx
    simpa using hw x hx
  have hlf : st.surfaces.find? (fun s => s.layer == layer) = none := by
    rw [List.find?_eq_none]
    intro x hx
    simpa using hl x hx
  refine ⟨?_, ?_, ?_, ?_⟩
  · simp [Wpaperd.scale_factor_changed, updateFirst_eq_none _ _ _ hwf]
  · simp [Wpaperd.transform_changed, updateFirst_eq_none _ _ _ hwf]
  · simp [Wpaperd.configure, updateFirst_eq_none _ _ _ hlf]
  · have : findIndex (fun s => s.output == o) st.surfaces = none := by
      refine findIndex_eq_none _ _ (fun x hx => ?_)
      simpa using ho x hx
    simp [Wpaperd.output_destroyed, this]

/-- Witness for C7 at the empty registry: all four handlers panic. -/
theorem C7_witness :
    emptyState.scale_factor_changed 10 2 = none ∧
    emptyState.transform_changed 10 3 = none ∧
    emptyState.configure 11 (800, 600) = none ∧
    emptyState.output_destroyed 7 = none :=
  C7_missing_match_panics emptyState 10 7 11 2 3 (800, 600)
    (by intro s hs; simp [emptyState] at hs)
    (by intro s hs; simp [emptyState] at hs)
    (by intro s hs; simp [emptyState] at hs)

/-- C8: a transform-changed event only calls `set_buffer_transform` on the
matched surface's wl_surface; it emits no resize, and the daemon state —
the matched Surface's dimensions, scale and configured flag, and all other
Surfaces — is unchanged. -/
theorem C8_transform_only (st : Wpaperd) (ws t : Nat) (s : Surface)
    (h : st.find_by_wl_surface ws = some s) :
    st.transform_changed ws t = some (st, [Action.set_buffer_transform t]) := by
  obtain ⟨l₁, l₂, hdecomp, _, _, hupd⟩ :=
    updateFirst_eq_some (fun x => x.surface == ws)
      (fun x => (x, [Action.set_buffer_transform t])) st.surfaces s h
  simp only [Wpaperd.transform_changed, hupd]
  rw [← hdecomp]
  rfl

/-- Witness for C8 at a concrete one-surface state. -/
theorem C8_witness :
    oneSurfaceState.transform_changed 10 3 =
      some (oneSurfaceState, [Action.set_buffer_transform 3]) :=
  C8_transform_only oneSurfaceState 10 3 sampleSurface rfl

/-- C9: a newly created Surface carries the WallpaperSettings resolved by
looking the output's name up in the configuration store; when no exact
entry matches the name, it receives the designated default entry, never an
absent value. -/
theorem C9_settings_fallback (st : Wpaperd) (info : OutputInfo)
    (sid lid : Nat)
    (hmiss : ∀ e ∈ st.wallpaper_config.entries, e.1 ≠ info.name) :
    ∃ s, (st.new_output info sid lid).1.surfaces.getLast? = some s ∧
      s.wallpaper_info = st.wallpaper_config.get_output_by_name info.name ∧
      s.wallpaper_info = st.wallpaper_config.defaultEntry := by
  refine ⟨_, List.getLast?_concat _, rfl, ?_⟩
  show st.wallpaper_config.get_output_by_name info.name =
    st.wallpaper_config.defaultEntry
  unfold WallpaperConfig.get_output_by_name
  rw [lookup_eq_none_of_no_key _ _ hmiss]

/-- Witness for C9: "HDMI-1" has no entry in `sampleConfig`, so its new
surface resolves to the default settings D. -/
theorem C9_witness :
    ∃ s, (emptyState.new_output sampleInfo 10 11).1.surfaces.getLast? =
        some s ∧
      s.wallpaper_info =
        emptyState.wallpaper_config.get_output_by_name sampleInfo.name ∧
      s.wallpaper_info = emptyState.wallpaper_config.defaultEntry :=
  C9_settings_fallback emptyState sampleInfo 10 11 (by decide)

theorem scale_factor_changed_of_eq (st : Wpaperd) (ws : Nat) (f : Int)
    (s : Surface) (h : st.find_by_wl_surface ws = some s) (hs : s.scale = f) :
    st.scale_factor_changed ws f = some (st, []) := by
  obtain ⟨l₁, l₂, hdecomp, hl₁, hps, hupd⟩ :=
    updateFirst_eq_some (fun x => x.surface == ws)
      (fun x =>
        if x.scale != f then
          (Surface.resize { x with scale := f } none,
           [Action.set_buffer_scale f, Action.resize none])
        else
          (x, []))
      st.surfaces s h
  have hcond : (s.scale != f) = false := by simp [hs]
  simp only [hcond, Bool.false_eq_true, if_false] at hupd
  simp only [Wpaperd.scale_factor_changed, hupd]
  rw [← hdecomp]
  rfl

theorem scale_factor_changed_of_ne (st : Wpaperd) (ws : Nat) (f : Int)
    (s : Surface) (h : st.find_by_wl_surface ws = some s) (hne : s.scale ≠ f) :
    ∃ l₁ l₂, st.surfaces = l₁ ++ s :: l₂ ∧
      st.scale_factor_changed ws f =
        some ({ st with surfaces :=
            l₁ ++ Surface.resize { s with scale := f } none :: l₂ },
          [Action.set_buffer_scale f, Action.resize none]) ∧
      Wpaperd.find_by_wl_surface
        { st with surfaces :=
            l₁ ++ Surface.resize { s with scale := f } none :: l₂ } ws =
        some (Surface.resize { s with scale := f } none) := by
  obtain ⟨l₁, l₂, hdecomp, hl₁, hps, hupd⟩ :=
    updateFirst_eq_some (fun x => x.surface == ws)
      (fun x =>
        if x.scale != f then
          (Surface.resize { x with scale := f } none,
           [Action.set_buffer_scale f, Action.resize none])
        else
          (x, []))
      st.surfaces s h
  have hcond : (s.scale != f) = true := by simpa using hne
  simp only [hcond, if_true] at hupd
  refine ⟨l₁, l₂, hdecomp, ?_, ?_⟩
  · simp only [Wpaperd.scale_factor_changed, hupd]
    rfl
  · exact find?_middle _ l₁ _ l₂ hl₁ hps

theorem scale_factor_changed_window_mode (st : Wpaperd) (b : Bool)
    (ws : Nat) (f : Int) :
    ({ st with use_scaled_window := b }).scale_factor_changed ws f =
      (st.scale_factor_changed ws f).map
        (fun r => ({ r.1 with use_scaled_window := b }, r.2)) := by
  obtain ⟨surfaces, cfg, usw⟩ := st
  simp only [Wpaperd.scale_factor_changed]
  cases hu : updateFirst (fun s => s.surface == ws)
      (fun s =>
        if s.scale != f then
          (Surface.resize { s with scale := f } none,
           [Action.set_buffer_scale f, Action.resize none])
        else
          (s, []))
      surfaces with
  | none => rfl
  | some r => rfl

theorem configure_decomp (st : Wpaperd) (layer : Nat) (sz : Nat × Nat)
    (s : Surface) (h : st.find_by_layer layer = some s) :
    ∃ l₁ l₂, st.surfaces = l₁ ++ s :: l₂ ∧
      ((s.dimensions = sz ∧
        st.configure layer sz =
          some ({ st with surfaces :=
              l₁ ++ { s with configured := true } :: l₂ },
            [Action.set_configured]) ∧
        Wpaperd.find_by_layer
          { st with surfaces := l₁ ++ { s with configured := true } :: l₂ }
          layer = some { s with configured := true }) ∨
       (s.dimensions ≠ sz ∧
        st.configure layer sz =
          some ({ st with surfaces :=
              l₁ ++ { Surface.resize s (some sz) with configured := true }
                :: l₂ },
            [Action.resize (some sz), Action.set_configured]) ∧
        Wpaperd.find_by_layer
          { st with surfaces :=
              l₁ ++ { Surface.resize s (some sz) with configured := true }
                :: l₂ }
          layer =
          some { Surface.resize s (some sz) with configured := true })) := by
  obtain ⟨l₁, l₂, hdecomp, hl₁, hps, hupd⟩ :=
    updateFirst_eq_some (fun x => x.layer == layer)
      (fun x =>
        let r :=
          if x.dimensions != sz then
            (Surface.resize x (some sz), [Action.resize (some sz)])
          else
            (x, [])
        ({ r.1 with configured := true }, r.2 ++ [Action.set_configured]))
      st.surfaces s h
  refine ⟨l₁, l₂, hdecomp, ?_⟩
  by_cases hd : s.dimensions = sz
  · left
    have hcond : (s.dimensions != sz) = false := by simp [hd]
    simp only [hcond, Bool.false_eq_true, if_false, List.nil_append] at hupd
    refine ⟨hd, ?_, ?_⟩
    · simp only [Wpaperd.configure, hupd]
      rfl
    · exact find?_middle _ l₁ _ l₂ hl₁ hps
  · right
    have hcond : (s.dimensions != sz) = true := by simpa using hd
    simp only [hcond, if_true, List.cons_append, List.nil_append] at hupd
    refine ⟨hd, ?_, ?_⟩
    · simp only [Wpaperd.configure, hupd]
      rfl
    · exact find?_middle _ l₁ _ l₂ hl₁ hps

/-- C2: a configure event resizes if and only if the proposed dimensions
differ from the Surface's stored dimensions; any resize call happens
strictly before `configured` is set; and `configured` is true afterwards
unconditionally. -/
theorem C2_configure_resize_iff (st : Wpaperd) (layer : Nat)
    (sz : Nat × Nat) (s : Surface) (h : st.find_by_layer layer = some s) :
    ∃ st' acts, st.configure layer sz = some (st', acts) ∧
      ((∃ c, Action.resize c ∈ acts) ↔ s.dimensions ≠ sz) ∧
      (∃ s', st'.find_by_layer layer = some s' ∧ s'.configured = true) ∧
      (∀ (i : Nat) (c : Option (Nat × Nat)),
        acts[i]? = some (Action.resize c) →
        ∀ j : Nat, acts[j]? = some Action.set_configured → i < j) := by
  obtain ⟨l₁, l₂, hdecomp, hcase⟩ := configure_decomp st layer sz s h
  rcases hcase with ⟨hd, heq, hfind⟩ | ⟨hd, heq, hfind⟩
  · refine ⟨_, _, heq, ?_, ⟨_, hfind, rfl⟩, ?_⟩
    · constructor
      · rintro ⟨c, hc⟩
        simp at hc
      · intro hne
        exact absurd hd hne
    · intro i c hi
      rcases i with _ | i <;> simp at hi
  · refine ⟨_, _, heq, ?_, ⟨_, hfind, rfl⟩, ?_⟩
    · exact ⟨fun _ => hd, fun _ => ⟨some sz, by simp⟩⟩
    · intro i c hi j hj
      rcases j with _ | j
      · simp at hj
      · rcases i with _ | i
        · omega
        · rcases i with _ | i <;> simp at hi

/-- Witness for C2 on a concrete state whose surface has dimensions
(800, 600), configured with the differing size (1024, 768). -/
theorem C2_witness :
    ∃ st' acts, oneSurfaceState.configure 11 (1024, 768) =
        some (st', acts) ∧
      ((∃ c, Action.resize c ∈ acts) ↔
        sampleSurface.dimensions ≠ (1024, 768)) ∧
      (∃ s', st'.find_by_layer 11 = some s' ∧ s'.configured = true) ∧
      (∀ (i : Nat) (c : Option (Nat × Nat)),
        acts[i]? = some (Action.resize c) →
        ∀ j : Nat, acts[j]? = some Action.set_configured → i < j) :=
  C2_configure_resize_iff oneSurfaceState 11 (1024, 768) sampleSurface rfl

/-- C3: a scale-factor-changed event whose factor equals the stored scale
is a complete no-op (no resize, no state change); when the factor differs,
the stored scale is updated, the buffer scale is propagated and a resize
with no explicit dimensions is triggered; and after any
scale-factor-changed event, a second event with the same factor is a
no-op (in particular it emits no resize call). -/
theorem C3_scale_factor_idempotence (st : Wpaperd) (ws : Nat) (f : Int)
    (s : Surface) (h : st.find_by_wl_surface ws = some s) :
    (s.scale = f → st.scale_factor_changed ws f = some (st, [])) ∧
    (s.scale ≠ f →
      ∃ st' acts, st.scale_factor_changed ws f = some (st', acts) ∧
        Action.set_buffer_scale f ∈ acts ∧ Action.resize none ∈ acts ∧
        ∃ s', st'.find_by_wl_surface ws = some s' ∧ s'.scale = f ∧
          s'.dimensions = s.dimensions) ∧
    (∀ st₁ acts₁, st.scale_factor_changed ws f = some (st₁, acts₁) →
      st₁.scale_factor_changed ws f = some (st₁, [])) := by
  refine ⟨fun hs => scale_factor_changed_of_eq st ws f s h hs,
    fun hne => ?_, ?_⟩
  · obtain ⟨l₁, l₂, hdecomp, heq, hfind⟩ :=
      scale_factor_changed_of_ne st ws f s h hne
    exact ⟨_, _, heq, by simp, by simp, _, hfind, rfl, rfl⟩
  · intro st₁ acts₁ heq
    by_cases hs : s.scale = f
    · rw [scale_factor_changed_of_eq st ws f s h hs] at heq
      have hpair := Option.some.inj heq
      rw [Prod.mk.injEq] at hpair
      rw [← hpair.1]
      exact scale_factor_changed_of_eq st ws f s h hs
    · obtain ⟨l₁, l₂, hdecomp, heq2, hfind⟩ :=
        scale_factor_changed_of_ne st ws f s h hs
      rw [heq2] at heq
      have hpair := Option.some.inj heq
      rw [Prod.mk.injEq] at hpair
      rw [← hpair.1]
      exact scale_factor_changed_of_eq _ ws f _ hfind rfl

/-- Witness for C3 at a concrete one-surface state with stored scale 2 and
a differing new factor 3. -/
theorem C3_witness :
    (sampleSurface.scale = 3 →
      oneSurfaceState.scale_factor_changed 10 3 = some (oneSurfaceState, [])) ∧
    (sampleSurface.scale ≠ 3 →
      ∃ st' acts, oneSurfaceState.scale_factor_changed 10 3 =
          some (st', acts) ∧
        Action.set_buffer_scale 3 ∈ acts ∧ Action.resize none ∈ acts ∧
        ∃ s', st'.find_by_wl_surface 10 = some s' ∧ s'.scale = 3 ∧
          s'.dimensions = sampleSurface.dimensions) ∧
    (∀ st₁ acts₁, oneSurfaceState.scale_factor_changed 10 3 =
        some (st₁, acts₁) →
      st₁.scale_factor_changed 10 3 = some (st₁, [])) :=
  C3_scale_factor_idempotence oneSurfaceState 10 3 sampleSurface rfl

/-- C10: on a scale-factor-changed event with a differing factor, the
handler sets the wl_surface's buffer scale to the new reported factor
unconditionally — the result is the same whichever value the scaled-window
flag has, so the buffer scale does not stay pinned to 1. -/
theorem C10_scaled_window_initial_only (st : Wpaperd) (ws : Nat) (f : Int)
    (s : Surface) (h : st.find_by_wl_surface ws = some s)
    (hne : s.scale ≠ f) :
    ∃ st' acts, st.scale_factor_changed ws f = some (st', acts) ∧
      Action.set_buffer_scale f ∈ acts ∧
      ∀ b : Bool,
        ({ st with use_scaled_window := b }).scale_factor_changed ws f =
          some ({ st' with use_scaled_window := b }, acts) := by
  obtain ⟨l₁, l₂, hdecomp, heq, hfind⟩ :=
    scale_factor_changed_of_ne st ws f s h hne
  refine ⟨_, _, heq, by simp, fun b => ?_⟩
  rw [scale_factor_changed_window_mode, heq]
  rfl

/-- Witness for C10 at a concrete one-surface state, new factor 3. -/
theorem C10_witness :
    ∃ st' acts, oneSurfaceState.scale_factor_changed 10 3 =
        some (st', acts) ∧
      Action.set_buffer_scale 3 ∈ acts ∧
      ∀ b : Bool,
        ({ oneSurfaceState with use_scaled_window := b
          }).scale_factor_changed 10 3 =
          some ({ st' with use_scaled_window := b }, acts) :=
  C10_scaled_window_initial_only oneSurfaceState 10 3 sampleSurface rfl
    (by decide)

/-- C4 counterexample: in scaled-window mode, with an output reporting
scale factor 2, the created Surface stores scale 2, not 1 (the initial
buffer scale is pinned to 1, but `Surface::new` is handed
`info.scale_factor`). -/
theorem C4_counterexample :
    scaledState.use_scaled_window = true ∧
    (scaledState.new_output sampleInfo 10 11).1.surfaces =
      [{ name := "HDMI-1", layer := 11, output := 7, surface := 10,
         scale := 2, dimensions := (0, 0), configured := false,
         wallpaper_info := settingsD }] ∧
    (scaledState.new_output sampleInfo 10 11).2 =
      [Action.set_buffer_scale 1] ∧
    (2 : Int) ≠ 1 := ⟨rfl, rfl, rfl, by decide⟩

/-- C4 amended: the initial buffer scale sent to the compositor is 1 in
scaled-window mode and the output's reported factor otherwise, but the
created Surface's stored scale is always the output's reported scale
factor (so the two coincide only outside scaled-window mode or when the
reported factor is 1). -/
theorem C4_amended_initial_scale (st : Wpaperd) (info : OutputInfo)
    (sid lid : Nat) :
    ∃ s, (st.new_output info sid lid).1.surfaces.getLast? = some s ∧
      s.scale = info.scale_factor ∧
      (st.new_output info sid lid).2 =
        [Action.set_buffer_scale
          (if st.use_scaled_window then 1 else info.scale_factor)] :=
  ⟨_, List.getLast?_concat _, rfl, rfl⟩

end WpaperdModel
